import Mathlib

/-!
Shallow embedding of the zkArchive backend (server.js and db.js):
an Express service that stores uploaded-file metadata records in an
in-memory list mirrored to a JSON file, with CORS gating, an upload
endpoint, and two query endpoints.
-/

set_option maxHeartbeats 1000000

namespace ZkArchive

/-- An archive record, as built by the `POST /api/upload` handler in
server.js. `walletAddress` is `Option String` because the handler stores
JavaScript `null` when the form field is falsy. -/
structure Archive where
  id : String
  name : String
  size : Nat
  mimeType : String
  hash : String
  walletAddress : Option String
  storagePath : String
  createdAt : String
deriving Repr, DecidableEq

/-- The part of multer's `req.file` object that the upload handler reads.
`filename` is the server-generated name under the upload directory, and
`size` is the byte size of the stored file. `originalname` and `mimetype`
are strings in multer; the empty string is the falsy case for `||`. -/
structure UploadedFile where
  originalname : String
  size : Nat
  mimetype : String
  filename : String
deriving Repr, DecidableEq

/-- A `POST /api/upload` request: the multer-processed file (if any) and
the `hash` / `walletAddress` form fields (absent fields are `none`). -/
structure UploadRequest where
  file : Option UploadedFile
  hash : Option String
  walletAddress : Option String
deriving Repr, DecidableEq

/-- The response of the upload handler: `badRequest` for the 400 paths,
`created` for the 201 path carrying `{success: true, archive}`. -/
inductive UploadResponse
  | badRequest (error : String)
  | created (archive : Archive)
deriving Repr, DecidableEq

def UploadResponse.status : UploadResponse → Nat
  | .badRequest _ => 400
  | .created _ => 201

def UploadResponse.success : UploadResponse → Bool
  | .badRequest _ => false
  | .created _ => true

/-- JavaScript `x || dflt` on strings: the empty string is falsy. -/
def jsOr (s dflt : String) : String := if s = "" then dflt else s

/-- JavaScript `x || null` on an optional string field. -/
def jsOrNull (w : Option String) : Option String :=
  match w with
  | none => none
  | some s => if s = "" then none else some s

/-- The archive object literal built in the upload handler. -/
def mkArchive (file : UploadedFile) (hash : String) (walletAddress : Option String)
    (id now : String) : Archive :=
  { id := id
    name := jsOr file.originalname "encrypted-file"
    size := file.size
    mimeType := jsOr file.mimetype "application/octet-stream"
    hash := hash
    walletAddress := jsOrNull walletAddress
    storagePath := file.filename
    createdAt := now }

/-- The `POST /api/upload` handler. `id` is the fresh uuid that
`uuidv4()` returned and `now` the ISO timestamp from `new Date()`; both
are nondeterministic inputs of the handler. Returns the response and the
new in-memory `archives` list (`archives.unshift(archive)` prepends). -/
def uploadHandler (archives : List Archive) (req : UploadRequest)
    (id now : String) : UploadResponse × List Archive :=
  match req.file with
  | none => (.badRequest "File is required", archives)
  | some file =>
    match req.hash with
    | none => (.badRequest "Field 'hash' is required", archives)
    | some hash =>
      if hash = "" then (.badRequest "Field 'hash' is required", archives)
      else
        let archive := mkArchive file hash req.walletAddress id now
        (.created archive, archive :: archives)

/-- JavaScript `String.prototype.toLowerCase`, modelled as per-character
lowering. -/
def jsToLowerCase (s : String) : String := ⟨s.data.map Char.toLower⟩

/-- The filter predicate of `GET /api/files`:
`(a.walletAddress || "").toLowerCase() === wallet.toLowerCase()`. -/
def walletMatches (a : Archive) (wallet : String) : Bool :=
  jsToLowerCase (a.walletAddress.getD "") == jsToLowerCase wallet

/-- The `GET /api/files` handler body: `wallet` is the optional query
parameter; `if (wallet)` is falsy for an absent or empty parameter.
Returns the `items` list of the 200 response. -/
def listFiles (archives : List Archive) (wallet : Option String) : List Archive :=
  match wallet with
  | none => archives
  | some w =>
    if w = "" then archives
    else archives.filter (fun a => walletMatches a w)

/-- The response of `GET /api/files/:id`. -/
inductive GetFileResponse
  | ok (archive : Archive)
  | notFound
deriving Repr, DecidableEq

def GetFileResponse.status : GetFileResponse → Nat
  | .ok _ => 200
  | .notFound => 404

/-- The `GET /api/files/:id` handler: `archives.find((a) => a.id === id)`,
404 `{error: "Archive not found"}` when absent. The handler never writes,
so the returned state is the unchanged `archives` list. -/
def getFileById (archives : List Archive) (id : String) :
    GetFileResponse × List Archive :=
  match archives.find? (fun a => a.id == id) with
  | none => (.notFound, archives)
  | some a => (.ok a, archives)

/-!
db.js: the JSON-file-backed metadata store. The file system and
`JSON.parse` are external to the repository; their possible outcomes on
the backing file are enumerated by `DbFile`.
-/

/-- The observable state of the backing `archives.json` file, from the
point of view of `loadDb`: absent, unreadable (the read throws),
holding text that `JSON.parse` rejects, parsing to a non-array JSON
value, or parsing to an array of records. -/
inductive DbFile
  | absent
  | unreadable
  | malformed
  | nonArray
  | array (records : List Archive)
deriving Repr, DecidableEq

/-- `loadDb()` from db.js: if the file is absent it writes `[]` and
returns `[]`; a read error or parse error is caught and yields `[]`; a
parsed non-array yields `[]`; a parsed array is returned as-is. The
second component is the file state after the call. -/
def loadDb : DbFile → List Archive × DbFile
  | .absent => ([], .array [])
  | .unreadable => ([], .unreadable)
  | .malformed => ([], .malformed)
  | .nonArray => ([], .nonArray)
  | .array records => (records, .array records)

/-- Outcome of the underlying `fs.writeFileSync` call, an external
nondeterministic event. -/
inductive WriteOutcome
  | success
  | failure
deriving Repr, DecidableEq

/-- The body of `saveDb`'s `try` block: `fs.writeFileSync` either
replaces the file contents or throws. -/
def writeArchivesFile (data : List Archive) :
    WriteOutcome → Except String DbFile
  | .success => .ok (.array data)
  | .failure => .error "EIO: i/o error"

/-- `saveDb(data)` from db.js: the write is wrapped in `try/catch`; on
failure the error is only logged (`console.error`). The result is the
value returned to the caller (always `()`), the resulting file state,
and the log line if any. -/
def saveDb (data : List Archive) (file : DbFile) (w : WriteOutcome) :
    Unit × DbFile × Option String :=
  match writeArchivesFile data w with
  | .ok f => ((), f, none)
  | .error e => ((), file, some ("Failed to save DB: " ++ e))

/-!
CORS gateway (server.js lines 20–56 and the global error handler).
-/

/-- The hard-coded `defaultAllowedOrigins` list. -/
def defaultAllowedOrigins : List String :=
  ["https://zkarchive.us",
   "https://app.zkarchive.us",
   "https://useodds.fun",
   "http://localhost:3000",
   "http://localhost:5173"]

/-- Helper for `jsSetDedup`: drop every element already seen. -/
def jsSetDedupAux (seen : List String) : List String → List String
  | [] => []
  | a :: l =>
    if a ∈ seen then jsSetDedupAux seen l
    else a :: jsSetDedupAux (a :: seen) l

/-- `[...new Set(l)]`: deduplication keeping the first occurrence of
each element, as a JavaScript `Set` does. -/
def jsSetDedup (l : List String) : List String := jsSetDedupAux [] l

/-- The extra origins parsed from the `CORS_ORIGINS` environment
variable: split on commas, trimmed, empty entries dropped
(`.filter(Boolean)`). -/
def extraOrigins (corsOriginsEnv : String) : List String :=
  ((corsOriginsEnv.splitOn ",").map (fun o => o.trim)).filter (fun o => o ≠ "")

/-- The `allowedOrigins` list: the defaults, extended and deduplicated
with the configured extras when `CORS_ORIGINS` is set. -/
def allowedOrigins (corsOriginsEnv : Option String) : List String :=
  match corsOriginsEnv with
  | none => defaultAllowedOrigins
  | some s => jsSetDedup (defaultAllowedOrigins ++ extraOrigins s)

/-- The result of the cors `origin` callback: `callback(null, true)` or
`callback(new Error("Not allowed by CORS"))`. -/
inductive CorsResult
  | allow
  | reject (errMessage : String)
deriving Repr, DecidableEq

/-- The `origin` callback passed to the cors middleware: requests with
no `Origin` header are allowed, origins in the allow-list are allowed,
everything else is rejected with an error. -/
def corsOriginCallback (allowed : List String) (origin : Option String) :
    CorsResult :=
  match origin with
  | none => .allow
  | some o => if o ∈ allowed then .allow else .reject "Not allowed by CORS"

/-- A structured JSON error response with its HTTP status. -/
structure ErrorResponse where
  status : Nat
  error : String
deriving Repr, DecidableEq

/-- The global error handler at the bottom of server.js: a CORS
rejection becomes 403 `{error: "CORS blocked"}`, anything else 500. -/
def globalErrorHandler (errMessage : String) : ErrorResponse :=
  if errMessage = "Not allowed by CORS" then ⟨403, "CORS blocked"⟩
  else ⟨500, "Internal server error"⟩

/-- The CORS gateway seen end to end: `none` means the request passes
the middleware; `some r` means it is rejected and the global error
handler answers with `r`. -/
def corsGateway (corsOriginsEnv : Option String) (origin : Option String) :
    Option ErrorResponse :=
  match corsOriginCallback (allowedOrigins corsOriginsEnv) origin with
  | .allow => none
  | .reject msg => some (globalErrorHandler msg)

/-!
The server's mutable state is the in-memory `archives` list; the three
route handlers are the only operations that touch it.
-/

/-- One incoming API request relevant to the `archives` state. For an
upload, `id` and `now` are the uuid and timestamp the handler draws. -/
inductive Event
  | upload (req : UploadRequest) (id now : String)
  | listReq (wallet : Option String)
  | getReq (id : String)
deriving Repr, DecidableEq

/-- The `archives` state after handling one request. The two query
handlers never write. -/
def applyEvent (st : List Archive) (e : Event) : List Archive :=
  match e with
  | .upload req id now => (uploadHandler st req id now).2
  | .listReq _ => st
  | .getReq i => (getFileById st i).2

/-- The `archives` state reached from the empty store by a sequence of
requests. -/
def runEvents (st : List Archive) (es : List Event) : List Archive :=
  es.foldl applyEvent st

/-- Whether an upload request passes the handler's validation; this
depends only on the request, not on the state. -/
def validUpload (req : UploadRequest) : Bool :=
  req.file.isSome && (match req.hash with | none => false | some h => h ≠ "")

/-- The record a given event adds to the store, if any: the archive
object for a successful upload, nothing otherwise. -/
def newRecord? (e : Event) : Option Archive :=
  match e with
  | .upload req id now =>
    match req.file, req.hash with
    | some file, some h =>
      if h = "" then none else some (mkArchive file h req.walletAddress id now)
    | _, _ => none
  | _ => none

/-- The ids assigned by the successful uploads of an event sequence. -/
def assignedIds (es : List Event) : List String :=
  (es.filterMap newRecord?).map Archive.id

/-- Whether an event is an upload that passes validation. -/
def isSuccessfulUpload (e : Event) : Bool :=
  match e with
  | .upload req _ _ => validUpload req
  | _ => false

/-!
Concrete sample data used to evaluate the theorems on closed inputs.
-/

def fileDemo : UploadedFile :=
  ⟨"note.txt", 10, "text/plain", "11111111-aaaa.txt"⟩

def archDemoA : Archive :=
  ⟨"idA", "a.txt", 3, "text/plain", "h1", some "0xAB", "pA", "t1"⟩

def archDemoB : Archive :=
  ⟨"idB", "b.txt", 4, "text/plain", "h2", none, "pB", "t2"⟩

def demoArchives : List Archive := [archDemoA, archDemoB]

def esDemo : List Event :=
  [.upload ⟨some fileDemo, some "h1", none⟩ "id-1" "t1",
   .upload ⟨some fileDemo, some "h2", some "0xAB"⟩ "id-2" "t2"]

/-!
Helper lemmas shared by the claim theorems.
-/

theorem jsToLowerCase_eq_empty_iff (s : String) :
    jsToLowerCase s = "" ↔ s = "" := by
  constructor
  · intro h
    have hd : (jsToLowerCase s).data = [] := by rw [h]
    simp only [jsToLowerCase, List.map_eq_nil_iff] at hd
    cases s
    simp_all
  · intro h
    subst h
    rfl

theorem mem_jsSetDedupAux (a : String) (l : List String) :
    ∀ seen, a ∈ jsSetDedupAux seen l ↔ a ∈ l ∧ a ∉ seen := by
  induction l with
  | nil => intro seen; simp [jsSetDedupAux]
  | cons b l ih =>
    intro seen
    by_cases hb : b ∈ seen
    · simp only [jsSetDedupAux, if_pos hb, ih, List.mem_cons]
      constructor
      · rintro ⟨h1, h2⟩; exact ⟨Or.inr h1, h2⟩
      · rintro ⟨h1 | h1, h2⟩
        · subst h1; exact absurd hb h2
        · exact ⟨h1, h2⟩
    · simp only [jsSetDedupAux, if_neg hb, List.mem_cons, ih]
      by_cases hab : a = b
      · subst hab; simp [hb]
      · simp [hab]

theorem mem_jsSetDedup (a : String) (l : List String) :
    a ∈ jsSetDedup l ↔ a ∈ l := by
  simp [jsSetDedup, mem_jsSetDedupAux]

theorem getFileById_snd (archives : List Archive) (i : String) :
    (getFileById archives i).2 = archives := by
  unfold getFileById
  cases archives.find? (fun a => a.id == i) <;> rfl

theorem uploadHandler_snd (st : List Archive) (req : UploadRequest)
    (id now : String) :
    (uploadHandler st req id now).2
      = (newRecord? (.upload req id now)).toList ++ st := by
  rcases req with ⟨file, hash, w⟩
  cases file with
  | none => rfl
  | some f =>
    cases hash with
    | none => rfl
    | some h =>
      by_cases hh : h = "" <;>
        simp [uploadHandler, newRecord?, hh]

theorem applyEvent_eq (st : List Archive) (e : Event) :
    applyEvent st e = (newRecord? e).toList ++ st := by
  cases e with
  | upload req id now => exact uploadHandler_snd st req id now
  | listReq w => rfl
  | getReq i =>
    simp [applyEvent, getFileById_snd, newRecord?]

theorem runEvents_eq (es : List Event) :
    ∀ st, runEvents st es = (es.filterMap newRecord?).reverse ++ st := by
  induction es with
  | nil => intro st; rfl
  | cons e es ih =>
    intro st
    show runEvents (applyEvent st e) es = _
    rw [ih, applyEvent_eq, List.filterMap_cons]
    cases hne : newRecord? e <;> simp

theorem length_filterMap_all_isSome {α β : Type} (f : α → Option β)
    (l : List α) (h : ∀ a ∈ l, (f a).isSome) :
    (l.filterMap f).length = l.length := by
  induction l with
  | nil => rfl
  | cons a l ih =>
    have ha := h a (List.mem_cons_self a l)
    rcases hf : f a with _ | b
    · rw [hf] at ha; simp at ha
    · rw [List.filterMap_cons, hf, List.length_cons,
        ih (fun x hx => h x (List.mem_cons_of_mem a hx))]
      rfl

theorem newRecord_isSome_of_successful (e : Event)
    (h : isSuccessfulUpload e = true) : (newRecord? e).isSome := by
  cases e with
  | upload req id now =>
    rcases req with ⟨file, hash, w⟩
    cases file with
    | none => simp [isSuccessfulUpload, validUpload] at h
    | some f =>
      cases hash with
      | none => simp [isSuccessfulUpload, validUpload] at h
      | some s =>
        simp only [isSuccessfulUpload, validUpload, Bool.and_eq_true,
          decide_eq_true_eq] at h
        simp [newRecord?, h.2]
  | listReq w => simp [isSuccessfulUpload] at h
  | getReq i => simp [isSuccessfulUpload] at h

theorem walletMatches_eq_true_iff (a : Archive) (w : String) (hw : w ≠ "") :
    walletMatches a w = true ↔
      ∃ s, a.walletAddress = some s ∧ jsToLowerCase s = jsToLowerCase w := by
  unfold walletMatches
  cases hwa : a.walletAddress with
  | none =>
    simp only [Option.getD_none]
    constructor
    · intro hm
      exfalso
      have h1 : jsToLowerCase "" = jsToLowerCase w := eq_of_beq hm
      rw [show jsToLowerCase "" = "" from rfl] at h1
      exact hw ((jsToLowerCase_eq_empty_iff w).mp h1.symm)
    · rintro ⟨s, hs, -⟩
      cases hs
  | some s =>
    simp only [Option.getD_some]
    constructor
    · intro hm
      exact ⟨s, rfl, eq_of_beq hm⟩
    · rintro ⟨s', hs', he⟩
      cases hs'
      exact beq_of_eq he

theorem listFiles_some_eq_filter (archives : List Archive) (w : String)
    (hw : w ≠ "") :
    listFiles archives (some w) = archives.filter (fun a => walletMatches a w) := by
  simp [listFiles, hw]

/-!
Claim theorems.
-/

/-- C1: For every upload request carrying a file and a non-empty string
`hash`, the upload handler responds 201 with `{success, archive}` where
the archive record has `name` equal to the client filename (defaulting
to a placeholder if absent), `size` equal to the stored file's byte
size, `mimeType` defaulting to a generic binary type if unknown, `hash`
equal to the supplied hash, `walletAddress` null when the field is
absent, and `storagePath` equal to the server-generated filename. -/
theorem upload_success_fields (archives : List Archive) (file : UploadedFile)
    (hash : String) (walletAddress : Option String) (id now : String)
    (hhash : hash ≠ "") :
    ∃ a : Archive,
      uploadHandler archives ⟨some file, some hash, walletAddress⟩ id now
        = (.created a, a :: archives) ∧
      (UploadResponse.created a).status = 201 ∧
      (UploadResponse.created a).success = true ∧
      a.name = (if file.originalname = "" then "encrypted-file"
                else file.originalname) ∧
      a.size = file.size ∧
      a.mimeType = (if file.mimetype = "" then "application/octet-stream"
                    else file.mimetype) ∧
      a.hash = hash ∧
      (walletAddress = none → a.walletAddress = none) ∧
      a.storagePath = file.filename := by
  refine ⟨mkArchive file hash walletAddress id now,
    ?_, rfl, rfl, rfl, rfl, rfl, rfl, ?_, rfl⟩
  · simp [uploadHandler, hhash]
  · rintro rfl
    rfl

/-- Witness for C1: a 10-byte `note.txt` with hash `abc123` and no
wallet gives a 201 whose record has the expected fields. -/
theorem upload_success_fields_witness :
    ∃ a : Archive,
      uploadHandler [] ⟨some fileDemo, some "abc123", none⟩ "id-1" "t0"
        = (.created a, a :: []) ∧
      (UploadResponse.created a).status = 201 ∧
      (UploadResponse.created a).success = true ∧
      a.name = (if fileDemo.originalname = "" then "encrypted-file"
                else fileDemo.originalname) ∧
      a.size = fileDemo.size ∧
      a.mimeType = (if fileDemo.mimetype = "" then "application/octet-stream"
                    else fileDemo.mimetype) ∧
      a.hash = "abc123" ∧
      ((none : Option String) = none → a.walletAddress = none) ∧
      a.storagePath = fileDemo.filename :=
  upload_success_fields [] fileDemo "abc123" none "id-1" "t0" (by decide)

/-- C5: For every upload request whose `hash` field is missing or is
the empty string, or whose file is missing, the upload handler responds
400 and leaves the in-memory record sequence exactly as it was, so the
record count is unchanged. -/
theorem upload_invalid_rejected (archives : List Archive)
    (req : UploadRequest) (id now : String)
    (h : req.hash = none ∨ req.hash = some "" ∨ req.file = none) :
    (uploadHandler archives req id now).1.status = 400 ∧
    (uploadHandler archives req id now).2 = archives ∧
    (uploadHandler archives req id now).2.length = archives.length := by
  rcases req with ⟨file, hash, w⟩
  rcases h with h | h | h
  · simp only at h
    subst h
    cases file <;> exact ⟨rfl, rfl, rfl⟩
  · simp only at h
    subst h
    cases file <;> simp [uploadHandler, UploadResponse.status]
  · simp only at h
    subst h
    exact ⟨rfl, rfl, rfl⟩

/-- Witness for C5: an upload with a file but no `hash` field is
rejected with 400 and the store keeps its two records. -/
theorem upload_invalid_rejected_witness :
    (uploadHandler demoArchives ⟨some fileDemo, none, none⟩ "id-9" "t9").1.status
      = 400 ∧
    (uploadHandler demoArchives ⟨some fileDemo, none, none⟩ "id-9" "t9").2
      = demoArchives ∧
    (uploadHandler demoArchives ⟨some fileDemo, none, none⟩ "id-9" "t9").2.length
      = demoArchives.length :=
  upload_invalid_rejected demoArchives ⟨some fileDemo, none, none⟩ "id-9" "t9"
    (Or.inl rfl)

/-- C10: An upload whose `walletAddress` form field is present but equal
to the empty string (the only falsy form-data string) behaves exactly as
if the field were absent: the created record's `walletAddress` is null,
and such a record never matches any non-empty wallet filter. -/
theorem empty_wallet_field_is_null (archives : List Archive)
    (file : UploadedFile) (hash : String) (id now : String)
    (hhash : hash ≠ "") :
    uploadHandler archives ⟨some file, some hash, some ""⟩ id now
      = uploadHandler archives ⟨some file, some hash, none⟩ id now ∧
    ∃ a : Archive,
      uploadHandler archives ⟨some file, some hash, some ""⟩ id now
        = (.created a, a :: archives) ∧
      a.walletAddress = none ∧
      ∀ w, w ≠ "" → a ∉ listFiles (a :: archives) (some w) := by
  refine ⟨by simp [uploadHandler, hhash, mkArchive, jsOrNull],
    mkArchive file hash (some "") id now, by simp [uploadHandler, hhash], rfl, ?_⟩
  intro w hw hmem
  rw [listFiles_some_eq_filter _ _ hw, List.mem_filter] at hmem
  obtain ⟨s, hs, -⟩ := (walletMatches_eq_true_iff _ _ hw).mp hmem.2
  cases hs

/-- Witness for C10: uploading with `walletAddress=""` stores a null
wallet and the record is invisible to the filter `wallet=0xAB`. -/
theorem empty_wallet_field_is_null_witness :
    uploadHandler demoArchives ⟨some fileDemo, some "h3", some ""⟩ "id-3" "t3"
      = uploadHandler demoArchives ⟨some fileDemo, some "h3", none⟩ "id-3" "t3" ∧
    ∃ a : Archive,
      uploadHandler demoArchives ⟨some fileDemo, some "h3", some ""⟩ "id-3" "t3"
        = (.created a, a :: demoArchives) ∧
      a.walletAddress = none ∧
      ∀ w, w ≠ "" → a ∉ listFiles (a :: demoArchives) (some w) :=
  empty_wallet_field_is_null demoArchives fileDemo "h3" "id-3" "t3" (by decide)

/-- C2: Starting from an empty store, a sequence of N successful
uploads leaves the list operation returning exactly N records, in
newest-first order: the final list is the reverse of the insertion
order, and each further successful upload prepends its record. -/
theorem list_after_n_uploads (es : List Event)
    (h : ∀ e ∈ es, isSuccessfulUpload e = true) :
    listFiles (runEvents [] es) none = runEvents [] es ∧
    (runEvents [] es).length = es.length ∧
    runEvents [] es = (es.filterMap newRecord?).reverse ∧
    (∀ e, isSuccessfulUpload e = true →
      ∃ a, newRecord? e = some a ∧
        runEvents [] (es ++ [e]) = a :: runEvents [] es) := by
  refine ⟨rfl, ?_, ?_, ?_⟩
  · rw [runEvents_eq, List.append_nil, List.length_reverse,
      length_filterMap_all_isSome _ _
        (fun e he => newRecord_isSome_of_successful e (h e he))]
  · rw [runEvents_eq, List.append_nil]
  · intro e he
    obtain ⟨a, ha⟩ := Option.isSome_iff_exists.mp
      (newRecord_isSome_of_successful e he)
    refine ⟨a, ha, ?_⟩
    show (es ++ [e]).foldl applyEvent [] = _
    rw [List.foldl_append]
    show applyEvent (runEvents [] es) e = _
    rw [applyEvent_eq, ha]
    rfl

/-- Witness for C2: after the two sample uploads the list endpoint
returns both records, newest first. -/
theorem list_after_n_uploads_witness :
    listFiles (runEvents [] esDemo) none = runEvents [] esDemo ∧
    (runEvents [] esDemo).length = esDemo.length ∧
    runEvents [] esDemo = (esDemo.filterMap newRecord?).reverse :=
  ⟨(list_after_n_uploads esDemo (by decide)).1,
   (list_after_n_uploads esDemo (by decide)).2.1,
   (list_after_n_uploads esDemo (by decide)).2.2.1⟩

/-- C3: For a non-empty wallet query parameter, the list operation
returns exactly the records whose `walletAddress` case-insensitively
equals the parameter, and a record with an absent `walletAddress` is
never in the result. -/
theorem wallet_filter_exact (archives : List Archive) (w : String)
    (a : Archive) (hw : w ≠ "") :
    (a ∈ listFiles archives (some w) ↔
      a ∈ archives ∧ ∃ s, a.walletAddress = some s ∧
        jsToLowerCase s = jsToLowerCase w) ∧
    (a.walletAddress = none → a ∉ listFiles archives (some w)) := by
  rw [listFiles_some_eq_filter _ _ hw]
  constructor
  · rw [List.mem_filter]
    constructor
    · rintro ⟨ha, hm⟩
      exact ⟨ha, (walletMatches_eq_true_iff a w hw).mp hm⟩
    · rintro ⟨ha, hs⟩
      exact ⟨ha, (walletMatches_eq_true_iff a w hw).mpr hs⟩
  · intro hnone hmem
    obtain ⟨s, hs, -⟩ :=
      (walletMatches_eq_true_iff a w hw).mp (List.mem_filter.mp hmem).2
    rw [hnone] at hs
    cases hs

/-- Witness for C3: with filter `0xab`, the record with wallet `0xAB`
is in the result (case-insensitive match) and the wallet-less record is
not. -/
theorem wallet_filter_exact_witness :
    (archDemoA ∈ listFiles demoArchives (some "0xab") ↔
      archDemoA ∈ demoArchives ∧ ∃ s, archDemoA.walletAddress = some s ∧
        jsToLowerCase s = jsToLowerCase "0xab") ∧
    (archDemoB.walletAddress = none →
      archDemoB ∉ listFiles demoArchives (some "0xab")) :=
  ⟨(wallet_filter_exact demoArchives "0xab" archDemoA (by decide)).1,
   (wallet_filter_exact demoArchives "0xab" archDemoB (by decide)).2⟩

/-- C4: Fetching by id returns a record of the store whose id exactly
matches when one exists, responds 404 when no record has that id, and
in both cases leaves the store unchanged. -/
theorem get_by_id_spec (archives : List Archive) (i : String) :
    (getFileById archives i).2 = archives ∧
    (∀ r, (getFileById archives i).1 = .ok r → r ∈ archives ∧ r.id = i) ∧
    ((∃ a ∈ archives, a.id = i) →
      ∃ r, (getFileById archives i).1 = .ok r ∧ r ∈ archives ∧ r.id = i) ∧
    ((¬ ∃ a ∈ archives, a.id = i) →
      (getFileById archives i).1 = .notFound ∧
      GetFileResponse.notFound.status = 404) := by
  refine ⟨getFileById_snd archives i, ?_, ?_, ?_⟩
  · intro r hr
    unfold getFileById at hr
    cases hfind : archives.find? (fun a => a.id == i) with
    | none => rw [hfind] at hr; cases hr
    | some a =>
      rw [hfind] at hr
      cases hr
      refine ⟨List.mem_of_find?_eq_some hfind, ?_⟩
      have := List.find?_some hfind
      simpa using this
  · rintro ⟨a, ha, hai⟩
    have hsome : (archives.find? (fun x => x.id == i)).isSome := by
      rw [List.find?_isSome]
      exact ⟨a, ha, by simp [hai]⟩
    obtain ⟨r, hr⟩ := Option.isSome_iff_exists.mp hsome
    refine ⟨r, ?_, List.mem_of_find?_eq_some hr, by simpa using List.find?_some hr⟩
    unfold getFileById
    rw [hr]
  · intro hnone
    have : archives.find? (fun x => x.id == i) = none := by
      rw [List.find?_eq_none]
      intro x hx
      simp only [beq_iff_eq]
      exact fun hxi => hnone ⟨x, hx, hxi⟩
    refine ⟨?_, rfl⟩
    unfold getFileById
    rw [this]

/-- Witness for C4: fetching `idA` finds the first sample record;
fetching `missing` yields 404; both leave the store untouched. -/
theorem get_by_id_spec_witness :
    (getFileById demoArchives "idA").2 = demoArchives ∧
    (∃ r, (getFileById demoArchives "idA").1 = .ok r ∧
      r ∈ demoArchives ∧ r.id = "idA") ∧
    ((getFileById demoArchives "missing").1 = .notFound ∧
      GetFileResponse.notFound.status = 404) :=
  ⟨(get_by_id_spec demoArchives "idA").1,
   (get_by_id_spec demoArchives "idA").2.2.1 ⟨archDemoA, by decide, rfl⟩,
   (get_by_id_spec demoArchives "missing").2.2.2 (by decide)⟩

/-- C6: `loadDb` always returns a sequence, for every state of the
backing file: when the file is absent it creates it containing an empty
sequence and returns an empty sequence; an unreadable file, a file that
fails to parse, or a file parsing to a non-array all yield an empty
sequence rather than a failure; a file parsing to an array yields that
array. -/
theorem loadDb_total_spec :
    loadDb .absent = ([], DbFile.array []) ∧
    loadDb .unreadable = ([], DbFile.unreadable) ∧
    loadDb .malformed = ([], DbFile.malformed) ∧
    loadDb .nonArray = ([], DbFile.nonArray) ∧
    ∀ records, loadDb (.array records) = (records, DbFile.array records) :=
  ⟨rfl, rfl, rfl, rfl, fun _ => rfl⟩

/-- Witness for C6: a backing file holding the sample records loads
them unchanged. -/
theorem loadDb_total_spec_witness :
    loadDb (.array demoArchives) = (demoArchives, DbFile.array demoArchives) :=
  loadDb_total_spec.2.2.2.2 demoArchives

/-- C7: `saveDb` never throws to its caller: even when the underlying
file write throws, the call returns normally with the failure only
logged, and the value handed back to the caller is identical to that of
a successful save. -/
theorem saveDb_never_throws (data : List Archive) (file : DbFile) :
    (∃ e, writeArchivesFile data .failure = .error e) ∧
    (∃ log, saveDb data file .failure = ((), file, some log)) ∧
    (∀ w, (saveDb data file w).1 = (saveDb data file .success).1) :=
  ⟨⟨"EIO: i/o error", rfl⟩, ⟨"Failed to save DB: EIO: i/o error", rfl⟩,
   fun w => match w with
     | .success => rfl
     | .failure => rfl⟩

/-- Witness for C7: saving the sample records over a failing write
returns unit, leaves the file as it was, and only logs. -/
theorem saveDb_never_throws_witness :
    (∃ e, writeArchivesFile demoArchives .failure = .error e) ∧
    (∃ log, saveDb demoArchives (.array []) .failure
      = ((), DbFile.array [], some log)) ∧
    (∀ w, (saveDb demoArchives (.array []) w).1
      = (saveDb demoArchives (.array []) .success).1) :=
  saveDb_never_throws demoArchives (.array [])

/-- C8: The CORS gateway accepts every request with no Origin header
and every request whose origin is in the allow-list — the fixed default
origins plus the deduplicated configured extras — and rejects every
other origin with a 403 structured error response. -/
theorem cors_gateway_spec (env : Option String) (origin : Option String) :
    (origin = none → corsGateway env origin = none) ∧
    (∀ o, origin = some o → o ∈ allowedOrigins env →
      corsGateway env origin = none) ∧
    (∀ o, origin = some o → o ∉ allowedOrigins env →
      corsGateway env origin = some ⟨403, "CORS blocked"⟩) ∧
    (∀ o, o ∈ allowedOrigins env ↔
      o ∈ defaultAllowedOrigins ∨ ∃ s, env = some s ∧ o ∈ extraOrigins s) := by
  refine ⟨?_, ?_, ?_, ?_⟩
  · rintro rfl
    rfl
  · rintro o rfl ho
    simp [corsGateway, corsOriginCallback, ho]
  · rintro o rfl ho
    simp [corsGateway, corsOriginCallback, ho, globalErrorHandler]
  · intro o
    cases env with
    | none => simp [allowedOrigins]
    | some s => simp [allowedOrigins, mem_jsSetDedup]

/-- Witness for C8: with no configured extras, a request from
`http://localhost:3000` passes the gateway and one from an unknown
origin is rejected with 403. -/
theorem cors_gateway_spec_witness :
    corsGateway none (some "http://localhost:3000") = none ∧
    corsGateway none (some "https://evil.example")
      = some ⟨403, "CORS blocked"⟩ ∧
    corsGateway none none = none :=
  ⟨(cors_gateway_spec none (some "http://localhost:3000")).2.1 _ rfl (by decide),
   (cors_gateway_spec none (some "https://evil.example")).2.2.1 _ rfl (by decide),
   (cors_gateway_spec none none).1 rfl⟩

/-- C9: When the uuids drawn by the successful uploads of a request
sequence are pairwise distinct, every store state reached from the
empty store has pairwise-distinct record ids; moreover no operation
ever mutates an existing record — each request leaves the previous
records untouched as a suffix and adds at most one new record. -/
theorem record_ids_unique (es : List Event)
    (h : (assignedIds es).Nodup) :
    ((runEvents [] es).map Archive.id).Nodup ∧
    (∀ st e, ∃ pre, applyEvent st e = pre ++ st ∧ pre.length ≤ 1) := by
  constructor
  · rw [runEvents_eq, List.append_nil, List.map_reverse, List.nodup_reverse]
    exact h
  · intro st e
    exact ⟨(newRecord? e).toList, applyEvent_eq st e,
      by cases newRecord? e <;> simp⟩

/-- Witness for C9: the two sample uploads draw distinct uuids, so the
resulting store has distinct ids. -/
theorem record_ids_unique_witness :
    ((runEvents [] esDemo).map Archive.id).Nodup ∧
    (∀ st e, ∃ pre, applyEvent st e = pre ++ st ∧ pre.length ≤ 1) :=
  record_ids_unique esDemo (by decide)

end ZkArchive
